import Mathlib

/-!
Verification development for the boids simulation (boids_pygame.py).

The simulation's vector arithmetic (pygame.math.Vector2) is modelled over
the real numbers; `Vector2.normalize()` raises a ValueError on a
zero-length vector, so every computation that reaches a normalize call is
modelled in `Option`, with `none` standing for the raised error.
The external inputs of a tick (wall-clock time `pygame.time.get_ticks()/1000`
and the per-object identity phase `id(boid) % 5` of leaders) are passed as
explicit real parameters.
-/

noncomputable section

/-- WIDTH constant of the simulation. -/
def WIDTH : ℝ := 1000

/-- HEIGHT constant of the simulation. -/
def HEIGHT : ℝ := 700

/-- MAX_SPEED constant of the simulation. -/
def MAX_SPEED : ℝ := 4

/-- MAX_FORCE constant of the simulation. -/
def MAX_FORCE : ℝ := 0.05

/-- The 2D vectors of pygame.math.Vector2, over the reals. -/
@[ext]
structure Vec2 where
  x : ℝ
  y : ℝ

def Vec2.add (a b : Vec2) : Vec2 := ⟨a.x + b.x, a.y + b.y⟩

instance : Add Vec2 := ⟨Vec2.add⟩

def Vec2.sub (a b : Vec2) : Vec2 := ⟨a.x - b.x, a.y - b.y⟩

instance : Sub Vec2 := ⟨Vec2.sub⟩

def Vec2.smul (c : ℝ) (v : Vec2) : Vec2 := ⟨c * v.x, c * v.y⟩

instance : SMul ℝ Vec2 := ⟨Vec2.smul⟩

instance : Zero Vec2 := ⟨⟨0, 0⟩⟩

instance : Neg Vec2 := ⟨fun v => ⟨-v.x, -v.y⟩⟩

/-- Vector2.length(): Euclidean length. -/
def Vec2.length (v : Vec2) : ℝ := Real.sqrt (v.x ^ 2 + v.y ^ 2)

/-- Vector2.distance_to(): Euclidean distance between two points. -/
def Vec2.distance_to (a b : Vec2) : ℝ := (a - b).length

/-- Dot product of two vectors. -/
def Vec2.dot (a b : Vec2) : ℝ := a.x * b.x + a.y * b.y

/-- Vector2.normalize(): raises (here `none`) on a zero-length vector,
otherwise divides by the length. -/
def normalizeOpt (v : Vec2) : Option Vec2 :=
  if v.length = 0 then none else some ((1 / v.length) • v)

/-- The limit utility: if vec.length() exceeds max_value, rescale to that
length (Vector2.scale_to_length), otherwise leave the vector unchanged. -/
def limit (v : Vec2) (m : ℝ) : Vec2 :=
  if v.length > m then (m / v.length) • v else v

/-- The Boid class.  `phase` models the per-object constant id(boid) % 5
used by the leader steering; `base_speed` is set at construction and never
read by the simulation. -/
@[ext]
structure Boid where
  pos : Vec2
  vel : Vec2
  acc : Vec2
  max_speed : ℝ
  max_force : ℝ
  leader : Bool
  base_speed : ℝ
  phase : ℝ

/-- Boid.apply_force: acc += force. -/
def Boid.apply_force (b : Boid) (force : Vec2) : Boid :=
  { b with acc := b.acc + force }

/-- Boid.wrap, x axis: if x < 0 add WIDTH, elif x > WIDTH subtract WIDTH. -/
def wrapX (x : ℝ) : ℝ :=
  if x < 0 then x + WIDTH else if x > WIDTH then x - WIDTH else x

/-- Boid.wrap, y axis. -/
def wrapY (y : ℝ) : ℝ :=
  if y < 0 then y + HEIGHT else if y > HEIGHT then y - HEIGHT else y

/-- Boid.wrap applied to a position. -/
def wrapPos (p : Vec2) : Vec2 := ⟨wrapX p.x, wrapY p.y⟩

/-- Boid.update: vel += acc; limit(vel, max_speed); pos += vel;
acc *= 0; wrap(). -/
def Boid.update (b : Boid) : Boid :=
  let v2 := limit (b.vel + b.acc) b.max_speed
  { b with vel := v2, pos := wrapPos (b.pos + v2), acc := 0 }

/-- The Obstacle class. -/
@[ext]
structure Obstacle where
  pos : Vec2
  radius : ℝ
  dynamic : Bool
  vel : Vec2

/-- Obstacle.update: if dynamic, pos += vel, then negate a velocity
component whenever the new position is outside that axis's range. -/
def Obstacle.update (ob : Obstacle) : Obstacle :=
  if ob.dynamic then
    let p := ob.pos + ob.vel
    let vx := if p.x < 0 ∨ p.x > WIDTH then -ob.vel.x else ob.vel.x
    let vy := if p.y < 0 ∨ p.y > HEIGHT then -ob.vel.y else ob.vel.y
    { ob with pos := p, vel := ⟨vx, vy⟩ }
  else ob

/-- The Flock class: boids, obstacles, and the tunable parameters. -/
@[ext]
structure Flock where
  boids : List Boid
  obstacles : List Obstacle
  separation_weight : ℝ
  alignment_weight : ℝ
  cohesion_weight : ℝ
  perception_radius : ℝ
  avoidance_radius : ℝ

/-- The loop of Flock.get_neighbors: `other is not boid` is object
identity in the source, modelled as list-position inequality (`j` is the
position of the candidate, `i` the position of the queried boid). -/
def neighborsLoop (r : ℝ) (p : Vec2) (i : ℕ) : ℕ → List Boid → List Boid
  | _, [] => []
  | j, o :: rest =>
      if j ≠ i ∧ p.distance_to o.pos < r then o :: neighborsLoop r p i (j + 1) rest
      else neighborsLoop r p i (j + 1) rest

/-- Flock.get_neighbors: every other boid strictly within
perception_radius of the queried boid (which sits at position `i`). -/
def Flock.get_neighbors (f : Flock) (i : ℕ) (b : Boid) : List Boid :=
  neighborsLoop f.perception_radius b.pos i 0 f.boids

/-- The accumulation loop of Flock.separation: for every boid at distance
0 < d < avoidance_radius, add (self - other).normalize() / d. -/
def sepLoop (avoidR : ℝ) (p : Vec2) : List Boid → Vec2 → Option Vec2
  | [], steer => some steer
  | o :: rest, steer =>
      let d := p.distance_to o.pos
      if 0 < d ∧ d < avoidR then
        match normalizeOpt (p - o.pos) with
        | none => none
        | some u => sepLoop avoidR p rest (steer + (1 / d) • u)
      else sepLoop avoidR p rest steer

/-- Flock.separation: accumulate, then if the accumulator is non-zero
normalize it, scale to max_speed and subtract the current velocity. -/
def Flock.separation (f : Flock) (b : Boid) : Option Vec2 :=
  match sepLoop f.avoidance_radius b.pos f.boids 0 with
  | none => none
  | some steer =>
      if steer.length > 0 then
        match normalizeOpt steer with
        | none => none
        | some u => some (b.max_speed • u - b.vel)
      else some steer

/-- Flock.alignment: average neighbor velocity, normalized (unguarded),
scaled to max_speed, minus the current velocity; zero when there are no
neighbors. -/
def Flock.alignment (f : Flock) (i : ℕ) (b : Boid) : Option Vec2 :=
  let neighbors := f.get_neighbors i b
  if neighbors.isEmpty then some 0
  else
    let avg := (1 / (neighbors.length : ℝ)) • neighbors.foldl (fun a o => a + o.vel) 0
    match normalizeOpt avg with
    | none => none
    | some u => some (b.max_speed • u - b.vel)

/-- Flock.cohesion: steer toward the neighbors' average position,
normalizing the offset (unguarded); zero when there are no neighbors. -/
def Flock.cohesion (f : Flock) (i : ℕ) (b : Boid) : Option Vec2 :=
  let neighbors := f.get_neighbors i b
  if neighbors.isEmpty then some 0
  else
    let center := (1 / (neighbors.length : ℝ)) • neighbors.foldl (fun a o => a + o.pos) 0
    match normalizeOpt (center - b.pos) with
    | none => none
    | some u => some (b.max_speed • u - b.vel)

/-- The accumulation loop of Flock.avoid_obstacles: for every obstacle at
distance d < radius + 40, add (self - center).normalize() * (1/(d+1)). -/
def obsLoop (p : Vec2) : List Obstacle → Vec2 → Option Vec2
  | [], steer => some steer
  | ob :: rest, steer =>
      let d := p.distance_to ob.pos
      if d < ob.radius + 40 then
        match normalizeOpt (p - ob.pos) with
        | none => none
        | some u => obsLoop p rest (steer + (1 / (d + 1)) • u)
      else obsLoop p rest steer

/-- Flock.avoid_obstacles. -/
def Flock.avoid_obstacles (f : Flock) (b : Boid) : Option Vec2 :=
  obsLoop b.pos f.obstacles 0

/-- The leader's orbital target: (WIDTH/2 + 200 cos(t + phase),
HEIGHT/2 + 200 sin(t + phase)), where t is the wall-clock seconds and
phase models id(boid) % 5. -/
def leaderTarget (t : ℝ) (b : Boid) : Vec2 :=
  ⟨WIDTH / 2 + 200 * Real.cos (t + b.phase),
   HEIGHT / 2 + 200 * Real.sin (t + b.phase)⟩

/-- The force-computation part of one iteration of the loop in
Flock.step, for the boid at position `i`: everything the source does to
the boid before its final update() call (leader steering, or the four
steering rules, the density-adaptive max_speed assignment, and the
clamped force application). -/
def Flock.forceBoid (f : Flock) (t : ℝ) (i : ℕ) (b : Boid) : Option Boid :=
  if b.leader then
    match normalizeOpt (leaderTarget t b - b.pos) with
    | none => none
    | some u =>
        some (b.apply_force (limit (b.max_speed • u - b.vel) b.max_force))
  else
    match f.separation b with
    | none => none
    | some sepv =>
      match f.alignment i b with
      | none => none
      | some aliv =>
        match f.cohesion i b with
        | none => none
        | some cohv =>
          match f.avoid_obstacles b with
          | none => none
          | some obsv =>
            let n := (f.get_neighbors i b).length
            let b2 := { b with max_speed := max 1.5 (4 - (n : ℝ) / 10) }
            let total := f.separation_weight • sepv + f.alignment_weight • aliv
              + f.cohesion_weight • cohv + (2 : ℝ) • obsv
            some (b2.apply_force (limit total b2.max_force))

/-- One full iteration of the loop in Flock.step for the boid at
position `i`: force computation followed by the boid's update(). -/
def Flock.processBoid (f : Flock) (t : ℝ) (i : ℕ) (b : Boid) : Option Boid :=
  (f.forceBoid t i b).map Boid.update

/-- The boid loop of Flock.step.  The source mutates the boid list in
place while iterating over it, so the boid at position `done.length` is
processed against the current list `done.reverse ++ b :: todo`, in which
the boids already processed this tick have moved. -/
def Flock.stepAux (f : Flock) (t : ℝ) : List Boid → List Boid → Option (List Boid)
  | done, [] => some done.reverse
  | done, b :: todo =>
      match Flock.processBoid { f with boids := done.reverse ++ b :: todo } t done.length b with
      | none => none
      | some b2 => Flock.stepAux f t (b2 :: done) todo

/-- Flock.step: update every obstacle, then run the boid loop (each boid
computes its force and immediately updates). -/
def Flock.step (f : Flock) (t : ℝ) : Option Flock :=
  let f1 := { f with obstacles := f.obstacles.map Obstacle.update }
  match f1.stepAux t [] f1.boids with
  | none => none
  | some bs => some { f1 with boids := bs }

/-- Force phase of the snapshot semantics: every boid's force is computed
against the same flock `f` (agent positions untouched this tick). -/
def Flock.forceAll (f : Flock) (t : ℝ) : ℕ → List Boid → Option (List Boid)
  | _, [] => some []
  | i, b :: rest =>
      match f.forceBoid t i b with
      | none => none
      | some bf =>
          match f.forceAll t (i + 1) rest with
          | none => none
          | some others => some (bf :: others)

/-- Snapshot-semantics step, following the specification's words:
obstacles update first, then every agent's steering force is computed
against the single pre-move snapshot of agent positions together with the
just-updated obstacle positions, and only after all forces are computed
does every agent integrate. -/
def Flock.stepSnapshot (f : Flock) (t : ℝ) : Option Flock :=
  let f1 := { f with obstacles := f.obstacles.map Obstacle.update }
  match f1.forceAll t 0 f1.boids with
  | none => none
  | some forced => some { f1 with boids := forced.map Boid.update }

end

/-! ### Componentwise lemmas and algebraic structure for Vec2 -/

@[simp] theorem Vec2.add_x (a b : Vec2) : (a + b).x = a.x + b.x := rfl

@[simp] theorem Vec2.add_y (a b : Vec2) : (a + b).y = a.y + b.y := rfl

@[simp] theorem Vec2.sub_x (a b : Vec2) : (a - b).x = a.x - b.x := rfl

@[simp] theorem Vec2.sub_y (a b : Vec2) : (a - b).y = a.y - b.y := rfl

@[simp] theorem Vec2.neg_x (a : Vec2) : (-a).x = -a.x := rfl

@[simp] theorem Vec2.neg_y (a : Vec2) : (-a).y = -a.y := rfl

@[simp] theorem Vec2.smul_x (c : ℝ) (v : Vec2) : (c • v).x = c * v.x := rfl

@[simp] theorem Vec2.smul_y (c : ℝ) (v : Vec2) : (c • v).y = c * v.y := rfl

@[simp] theorem Vec2.zero_x : (0 : Vec2).x = 0 := rfl

@[simp] theorem Vec2.zero_y : (0 : Vec2).y = 0 := rfl

@[simp] theorem Vec2.mk_add_mk (a b c d : ℝ) :
    (⟨a, b⟩ + ⟨c, d⟩ : Vec2) = ⟨a + c, b + d⟩ := rfl

@[simp] theorem Vec2.mk_sub_mk (a b c d : ℝ) :
    (⟨a, b⟩ - ⟨c, d⟩ : Vec2) = ⟨a - c, b - d⟩ := rfl

@[simp] theorem Vec2.smul_mk (c a b : ℝ) :
    (c • (⟨a, b⟩ : Vec2)) = ⟨c * a, c * b⟩ := rfl

theorem Vec2.zero_add (v : Vec2) : 0 + v = v := by ext <;> simp

theorem Vec2.add_zero (v : Vec2) : v + 0 = v := by ext <;> simp

theorem Vec2.sub_self (v : Vec2) : v - v = 0 := by ext <;> simp

theorem Vec2.sub_zero (v : Vec2) : v - 0 = v := by ext <;> simp

theorem Vec2.smul_smul (a b : ℝ) (v : Vec2) : a • (b • v) = (a * b) • v := by
  ext <;> simp <;> ring

theorem Vec2.one_smul (v : Vec2) : (1 : ℝ) • v = v := by ext <;> simp

theorem Vec2.smul_zero (a : ℝ) : a • (0 : Vec2) = 0 := by ext <;> simp

theorem Vec2.neg_sub (a b : Vec2) : b - a = (-1 : ℝ) • (a - b) := by
  ext <;> simp

theorem Vec2.smul_dot (c : ℝ) (a b : Vec2) : (c • a).dot b = c * a.dot b := by
  simp [Vec2.dot]
  ring

/-! ### Length, distance, limit and normalize lemmas -/

theorem Vec2.length_nonneg (v : Vec2) : 0 ≤ v.length := Real.sqrt_nonneg _

theorem Vec2.length_eval {v : Vec2} {r : ℝ} (hr : 0 ≤ r)
    (h : v.x ^ 2 + v.y ^ 2 = r ^ 2) : v.length = r := by
  rw [Vec2.length, h, Real.sqrt_sq hr]

@[simp] theorem Vec2.length_zero : (0 : Vec2).length = 0 := by
  have : ((0 : Vec2)).x ^ 2 + ((0 : Vec2)).y ^ 2 = (0 : ℝ) ^ 2 := by norm_num
  simpa using Vec2.length_eval le_rfl this

theorem Vec2.length_eq_zero {v : Vec2} : v.length = 0 ↔ v = 0 := by
  constructor
  · intro h
    rw [Vec2.length, Real.sqrt_eq_zero'] at h
    have hx : v.x = 0 := by nlinarith [sq_nonneg v.x, sq_nonneg v.y]
    have hy : v.y = 0 := by nlinarith [sq_nonneg v.x, sq_nonneg v.y]
    ext <;> simp [hx, hy]
  · intro h
    rw [h]
    exact Vec2.length_zero

theorem Vec2.length_smul (c : ℝ) (v : Vec2) :
    (c • v).length = |c| * v.length := by
  rw [Vec2.length, Vec2.length]
  have h1 : (c • v).x ^ 2 + (c • v).y ^ 2 = c ^ 2 * (v.x ^ 2 + v.y ^ 2) := by
    simp
    ring
  rw [h1, Real.sqrt_mul (sq_nonneg c), Real.sqrt_sq_eq_abs]

theorem Vec2.dot_self (v : Vec2) : v.dot v = v.length ^ 2 := by
  rw [Vec2.length, Real.sq_sqrt (by positivity), Vec2.dot]
  ring

theorem Vec2.abs_x_le_length (v : Vec2) : |v.x| ≤ v.length := by
  rw [Vec2.length, ← Real.sqrt_sq_eq_abs]
  exact Real.sqrt_le_sqrt (by nlinarith [sq_nonneg v.y])

theorem Vec2.abs_y_le_length (v : Vec2) : |v.y| ≤ v.length := by
  rw [Vec2.length, ← Real.sqrt_sq_eq_abs]
  exact Real.sqrt_le_sqrt (by nlinarith [sq_nonneg v.x])

theorem Vec2.distance_to_self (a : Vec2) : a.distance_to a = 0 := by
  rw [Vec2.distance_to, Vec2.sub_self]
  exact Vec2.length_zero

theorem Vec2.distance_to_comm (a b : Vec2) :
    a.distance_to b = b.distance_to a := by
  rw [Vec2.distance_to, Vec2.distance_to, Vec2.neg_sub a b, Vec2.length_smul]
  norm_num

theorem Vec2.distance_to_eq_length (a b : Vec2) :
    a.distance_to b = (a - b).length := rfl

theorem limit_of_not_gt {v : Vec2} {m : ℝ} (h : ¬ v.length > m) :
    limit v m = v := by
  rw [limit, if_neg h]

theorem limit_length_le {m : ℝ} (hm : 0 ≤ m) (v : Vec2) :
    (limit v m).length ≤ m := by
  rw [limit]
  split_ifs with h
  · have hv : 0 < v.length := lt_of_le_of_lt hm h
    rw [Vec2.length_smul, abs_of_nonneg (div_nonneg hm hv.le),
      div_mul_cancel₀ _ hv.ne']
  · exact not_lt.mp h

theorem normalizeOpt_of_length_pos {v : Vec2} (h : 0 < v.length) :
    normalizeOpt v = some ((1 / v.length) • v) := by
  rw [normalizeOpt, if_neg h.ne']

theorem normalizeOpt_zero_length {v : Vec2} (h : v.length = 0) :
    normalizeOpt v = none := by
  rw [normalizeOpt, if_pos h]

/-! ### Field lemmas for Boid and position wrapping -/

@[simp] theorem Boid.apply_force_pos (b : Boid) (g : Vec2) :
    (b.apply_force g).pos = b.pos := rfl

@[simp] theorem Boid.apply_force_vel (b : Boid) (g : Vec2) :
    (b.apply_force g).vel = b.vel := rfl

@[simp] theorem Boid.apply_force_acc (b : Boid) (g : Vec2) :
    (b.apply_force g).acc = b.acc + g := rfl

@[simp] theorem Boid.apply_force_max_speed (b : Boid) (g : Vec2) :
    (b.apply_force g).max_speed = b.max_speed := rfl

@[simp] theorem Boid.apply_force_leader (b : Boid) (g : Vec2) :
    (b.apply_force g).leader = b.leader := rfl

@[simp] theorem Boid.update_vel (b : Boid) :
    b.update.vel = limit (b.vel + b.acc) b.max_speed := rfl

@[simp] theorem Boid.update_pos (b : Boid) :
    b.update.pos = wrapPos (b.pos + limit (b.vel + b.acc) b.max_speed) := rfl

@[simp] theorem Boid.update_acc (b : Boid) : b.update.acc = 0 := rfl

@[simp] theorem Boid.update_max_speed (b : Boid) :
    b.update.max_speed = b.max_speed := rfl

@[simp] theorem Boid.update_leader (b : Boid) : b.update.leader = b.leader := rfl

@[simp] theorem Boid.update_max_force (b : Boid) :
    b.update.max_force = b.max_force := rfl

@[simp] theorem Boid.update_base_speed (b : Boid) :
    b.update.base_speed = b.base_speed := rfl

@[simp] theorem Boid.update_phase (b : Boid) : b.update.phase = b.phase := rfl

@[simp] theorem Boid.apply_force_max_force (b : Boid) (g : Vec2) :
    (b.apply_force g).max_force = b.max_force := rfl

@[simp] theorem Boid.apply_force_base_speed (b : Boid) (g : Vec2) :
    (b.apply_force g).base_speed = b.base_speed := rfl

@[simp] theorem Boid.apply_force_phase (b : Boid) (g : Vec2) :
    (b.apply_force g).phase = b.phase := rfl

@[simp] theorem wrapPos_x (p : Vec2) : (wrapPos p).x = wrapX p.x := rfl

@[simp] theorem wrapPos_y (p : Vec2) : (wrapPos p).y = wrapY p.y := rfl

theorem wrapX_bounds {z : ℝ} (h1 : -WIDTH ≤ z) (h2 : z ≤ 2 * WIDTH) :
    0 ≤ wrapX z ∧ wrapX z ≤ WIDTH := by
  simp only [wrapX, WIDTH] at h1 h2 ⊢
  split_ifs <;> constructor <;> linarith

theorem wrapY_bounds {z : ℝ} (h1 : -HEIGHT ≤ z) (h2 : z ≤ 2 * HEIGHT) :
    0 ≤ wrapY z ∧ wrapY z ≤ HEIGHT := by
  simp only [wrapY, HEIGHT] at h1 h2 ⊢
  split_ifs <;> constructor <;> linarith

theorem wrapX_of_gt {z : ℝ} (h : WIDTH < z) : wrapX z = z - WIDTH := by
  have h0 : ¬ z < 0 := by simp only [WIDTH] at h; linarith
  rw [wrapX, if_neg h0, if_pos h]

/-- Claim C3: immediately after a boid's update (integrate) call, the
length of its velocity is at most its current max_speed (which in the
simulation is always nonnegative), and its acceleration is the zero
vector. -/
theorem claim_C3_thm (b : Boid) (h : 0 ≤ b.max_speed) :
    b.update.vel.length ≤ b.max_speed ∧ b.update.acc = 0 :=
  ⟨by rw [Boid.update_vel]; exact limit_length_le h _, rfl⟩

/-- A concrete boid for the witness of claim C3. -/
def CB3 : Boid := ⟨⟨500, 100⟩, ⟨3, 4⟩, ⟨0, 0⟩, 4, 0.05, false, 2, 0⟩

/-- Witness for claim C3 at a concrete boid. -/
theorem claim_C3_witness :
    0 ≤ CB3.max_speed ∧
      (CB3.update.vel.length ≤ CB3.max_speed ∧ CB3.update.acc = 0) :=
  ⟨by norm_num [CB3], claim_C3_thm CB3 (by norm_num [CB3])⟩

/-- A concrete boid whose update lands exactly on x = WIDTH. -/
def CB4 : Boid := ⟨⟨999, 100⟩, ⟨1, 0⟩, ⟨0, 0⟩, 4, 0.05, false, 2, 0⟩

/-- Counterexample to claim C4 as stated: after this boid's update, its
x position equals WIDTH = 1000 exactly, so it does not lie in
[0, worldWidth). -/
theorem claim_C4_counterexample :
    CB4.update.pos.x = 1000 ∧ ¬ CB4.update.pos.x < 1000 := by
  have hsum : CB4.vel + CB4.acc = (⟨1, 0⟩ : Vec2) := by
    ext <;> simp [CB4]
  have hlen : ((⟨1, 0⟩ : Vec2) : Vec2).length = 1 :=
    Vec2.length_eval (by norm_num) (by norm_num)
  have hlim : limit (CB4.vel + CB4.acc) CB4.max_speed = (⟨1, 0⟩ : Vec2) := by
    rw [hsum, limit, if_neg]
    rw [hlen]
    norm_num [CB4]
  have hx : CB4.update.pos.x = wrapX 1000 := by
    rw [Boid.update_pos, wrapPos_x, hlim]
    norm_num [CB4]
  rw [hx, wrapX]
  norm_num [WIDTH]

/-- Claim C4 (amended): after update the position lies in the closed box
[0, WIDTH] x [0, HEIGHT] (the right/bottom edge value is attainable, as
the counterexample shows), each axis wrapping independently by a single
world-size shift; and the epsilon edge-crossing property holds: a boid at
x = WIDTH - eps whose post-clamp x velocity exceeds eps ends in
[0, WIDTH). -/
theorem claim_C4_thm (b : Boid)
    (hx0 : 0 ≤ b.pos.x) (hx1 : b.pos.x ≤ WIDTH)
    (hy0 : 0 ≤ b.pos.y) (hy1 : b.pos.y ≤ HEIGHT)
    (hm0 : 0 ≤ b.max_speed) (hm1 : b.max_speed ≤ HEIGHT) :
    (0 ≤ b.update.pos.x ∧ b.update.pos.x ≤ WIDTH ∧
     0 ≤ b.update.pos.y ∧ b.update.pos.y ≤ HEIGHT) ∧
    (∀ eps : ℝ, 0 < eps → b.pos.x = WIDTH - eps →
      eps < (limit (b.vel + b.acc) b.max_speed).x →
      0 ≤ b.update.pos.x ∧ b.update.pos.x < WIDTH) := by
  have hlen : (limit (b.vel + b.acc) b.max_speed).length ≤ b.max_speed :=
    limit_length_le hm0 _
  have hvx : |(limit (b.vel + b.acc) b.max_speed).x| ≤ HEIGHT :=
    le_trans (Vec2.abs_x_le_length _) (le_trans hlen hm1)
  have hvy : |(limit (b.vel + b.acc) b.max_speed).y| ≤ HEIGHT :=
    le_trans (Vec2.abs_y_le_length _) (le_trans hlen hm1)
  have hvx' := abs_le.mp hvx
  have hvy' := abs_le.mp hvy
  have hWH : HEIGHT ≤ WIDTH := by norm_num [WIDTH, HEIGHT]
  have hupx : b.update.pos.x = wrapX (b.pos.x + (limit (b.vel + b.acc) b.max_speed).x) := by
    rw [Boid.update_pos, wrapPos_x, Vec2.add_x]
  have hupy : b.update.pos.y = wrapY (b.pos.y + (limit (b.vel + b.acc) b.max_speed).y) := by
    rw [Boid.update_pos, wrapPos_y, Vec2.add_y]
  constructor
  · have hbx := wrapX_bounds (z := b.pos.x + (limit (b.vel + b.acc) b.max_speed).x)
      (by simp only [WIDTH, HEIGHT] at *; linarith)
      (by simp only [WIDTH, HEIGHT] at *; linarith)
    have hby := wrapY_bounds (z := b.pos.y + (limit (b.vel + b.acc) b.max_speed).y)
      (by simp only [WIDTH, HEIGHT] at *; linarith)
      (by simp only [WIDTH, HEIGHT] at *; linarith)
    rw [hupx, hupy]
    exact ⟨hbx.1, hbx.2, hby.1, hby.2⟩
  · intro eps heps hposx hvel
    have hz : WIDTH < b.pos.x + (limit (b.vel + b.acc) b.max_speed).x := by
      rw [hposx]; linarith
    rw [hupx, wrapX_of_gt hz, hposx]
    constructor
    · linarith
    · simp only [WIDTH, HEIGHT] at *; linarith

/-- A concrete boid for the witness of claim C4. -/
def CB4W : Boid := ⟨⟨999.5, 100⟩, ⟨1, 0⟩, ⟨0, 0⟩, 4, 0.05, false, 2, 0⟩

/-- Witness for the amended claim C4 at a concrete boid. -/
theorem claim_C4_witness :
    (0 ≤ CB4W.pos.x ∧ CB4W.pos.x ≤ WIDTH ∧ 0 ≤ CB4W.pos.y ∧
      CB4W.pos.y ≤ HEIGHT ∧ 0 ≤ CB4W.max_speed ∧ CB4W.max_speed ≤ HEIGHT) ∧
    ((0 ≤ CB4W.update.pos.x ∧ CB4W.update.pos.x ≤ WIDTH ∧
      0 ≤ CB4W.update.pos.y ∧ CB4W.update.pos.y ≤ HEIGHT) ∧
     (∀ eps : ℝ, 0 < eps → CB4W.pos.x = WIDTH - eps →
       eps < (limit (CB4W.vel + CB4W.acc) CB4W.max_speed).x →
       0 ≤ CB4W.update.pos.x ∧ CB4W.update.pos.x < WIDTH)) :=
  ⟨by norm_num [CB4W, WIDTH, HEIGHT],
   claim_C4_thm CB4W (by norm_num [CB4W]) (by norm_num [CB4W, WIDTH])
     (by norm_num [CB4W]) (by norm_num [CB4W, HEIGHT])
     (by norm_num [CB4W]) (by norm_num [CB4W, HEIGHT])⟩

/-- A concrete dynamic obstacle that crosses x = 0 this tick. -/
def OC6 : Obstacle := ⟨⟨0.4, 100⟩, 30, true, ⟨-1, 0⟩⟩

/-- Counterexample to claim C6 as stated: this dynamic obstacle's update
flips its x velocity but leaves its position at x = -0.6, outside the
visible world rectangle, for the rest of the tick. -/
theorem claim_C6_counterexample :
    OC6.update.pos.x = -0.6 ∧ OC6.update.pos.x < 0 := by
  have h : OC6.update.pos.x = 0.4 + -1 := by
    simp [Obstacle.update, OC6]
  rw [h]
  norm_num

/-- Claim C6 (amended): a dynamic obstacle adds its velocity to its
position each tick and negates a velocity component exactly when the new
position is outside that axis's range (once per such tick); starting
inside the rectangle, the new position stays within the rectangle
enlarged by the corresponding speed component (it can be outside the
visible rectangle itself on a crossing tick, as the counterexample
shows); static obstacles never move. -/
theorem claim_C6_thm (ob : Obstacle)
    (hx0 : 0 ≤ ob.pos.x) (hx1 : ob.pos.x ≤ WIDTH)
    (hy0 : 0 ≤ ob.pos.y) (hy1 : ob.pos.y ≤ HEIGHT) :
    (ob.dynamic = true →
      ob.update.pos = ob.pos + ob.vel ∧
      ob.update.vel.x =
        (if (ob.pos + ob.vel).x < 0 ∨ (ob.pos + ob.vel).x > WIDTH
         then -ob.vel.x else ob.vel.x) ∧
      ob.update.vel.y =
        (if (ob.pos + ob.vel).y < 0 ∨ (ob.pos + ob.vel).y > HEIGHT
         then -ob.vel.y else ob.vel.y) ∧
      -|ob.vel.x| ≤ ob.update.pos.x ∧ ob.update.pos.x ≤ WIDTH + |ob.vel.x| ∧
      -|ob.vel.y| ≤ ob.update.pos.y ∧ ob.update.pos.y ≤ HEIGHT + |ob.vel.y|) ∧
    (ob.dynamic = false → ob.update = ob) := by
  constructor
  · intro hdyn
    have hux : ob.update.pos.x = ob.pos.x + ob.vel.x := by
      simp [Obstacle.update, hdyn]
    have huy : ob.update.pos.y = ob.pos.y + ob.vel.y := by
      simp [Obstacle.update, hdyn]
    refine ⟨by simp [Obstacle.update, hdyn], by simp [Obstacle.update, hdyn],
      by simp [Obstacle.update, hdyn], ?_, ?_, ?_, ?_⟩
    · rw [hux]; have := neg_abs_le ob.vel.x; linarith
    · rw [hux]; have := le_abs_self ob.vel.x; linarith
    · rw [huy]; have := neg_abs_le ob.vel.y; linarith
    · rw [huy]; have := le_abs_self ob.vel.y; linarith
  · intro h
    simp [Obstacle.update, h]

/-- A concrete dynamic obstacle for the witness of claim C6. -/
def OW6 : Obstacle := ⟨⟨500, 350⟩, 30, true, ⟨1, 2⟩⟩

/-- Witness for the amended claim C6 at a concrete obstacle. -/
theorem claim_C6_witness :
    (0 ≤ OW6.pos.x ∧ OW6.pos.x ≤ WIDTH ∧ 0 ≤ OW6.pos.y ∧ OW6.pos.y ≤ HEIGHT) ∧
    ((OW6.dynamic = true →
      OW6.update.pos = OW6.pos + OW6.vel ∧
      OW6.update.vel.x =
        (if (OW6.pos + OW6.vel).x < 0 ∨ (OW6.pos + OW6.vel).x > WIDTH
         then -OW6.vel.x else OW6.vel.x) ∧
      OW6.update.vel.y =
        (if (OW6.pos + OW6.vel).y < 0 ∨ (OW6.pos + OW6.vel).y > HEIGHT
         then -OW6.vel.y else OW6.vel.y) ∧
      -|OW6.vel.x| ≤ OW6.update.pos.x ∧ OW6.update.pos.x ≤ WIDTH + |OW6.vel.x| ∧
      -|OW6.vel.y| ≤ OW6.update.pos.y ∧ OW6.update.pos.y ≤ HEIGHT + |OW6.vel.y|) ∧
     (OW6.dynamic = false → OW6.update = OW6)) :=
  ⟨by norm_num [OW6, WIDTH, HEIGHT],
   claim_C6_thm OW6 (by norm_num [OW6]) (by norm_num [OW6, WIDTH])
     (by norm_num [OW6]) (by norm_num [OW6, HEIGHT])⟩

/-! ### Separation is totally guarded (claims C2 and C9) -/

theorem Vec2.distance_to_eval {a b : Vec2} {r : ℝ} (hr : 0 ≤ r)
    (h : (a.x - b.x) ^ 2 + (a.y - b.y) ^ 2 = r ^ 2) : a.distance_to b = r :=
  Vec2.length_eval hr (by simpa using h)

theorem sepLoop_isSome (r : ℝ) (p : Vec2) :
    ∀ (l : List Boid) (acc : Vec2), (sepLoop r p l acc).isSome = true := by
  intro l
  induction l with
  | nil => intro acc; rfl
  | cons o rest ih =>
      intro acc
      simp only [sepLoop]
      split_ifs with h
      · have hpos : 0 < (p - o.pos).length := h.1
        rw [normalizeOpt_of_length_pos hpos]
        exact ih _
      · exact ih _

theorem separation_isSome (f : Flock) (b : Boid) :
    (f.separation b).isSome = true := by
  have h := sepLoop_isSome f.avoidance_radius b.pos f.boids 0
  unfold Flock.separation
  cases hs : sepLoop f.avoidance_radius b.pos f.boids 0 with
  | none => rw [hs] at h; exact absurd h (by simp)
  | some steer =>
      dsimp only
      split_ifs with hlen
      · rw [normalizeOpt_of_length_pos hlen]
        rfl
      · rfl

/-- One coincident boid at the head of the list contributes nothing to
the separation accumulator. -/
theorem sepLoop_cons_coincident (r : ℝ) (p : Vec2) (o : Boid)
    (h : p.distance_to o.pos = 0) (l : List Boid) (acc : Vec2) :
    sepLoop r p (o :: l) acc = sepLoop r p l acc := by
  simp only [sepLoop]
  rw [if_neg]
  rw [h]
  simp

/-- Claim C2 (amended): the normalize calls inside Flock.separation are
guarded (only boids at distance 0 < d < avoidance_radius are normalized,
and the accumulator is normalized only when its length is positive), so
separation never raises on a zero-length normalization, for every flock
and every queried boid.  (The normalize calls in the leader steering,
alignment, cohesion and obstacle avoidance are unguarded; the
counterexample shows a whole step raising.) -/
theorem claim_C2_thm (f : Flock) (b : Boid) :
    (f.separation b).isSome = true :=
  separation_isSome f b

/-- Claim C9: the separation computation skips every boid at exactly zero
distance from the queried boid: prepending a coincident boid to the flock
leaves the separation force unchanged, and separation never fails
(no zero-length normalize, no division by zero). -/
theorem claim_C9_thm (f : Flock) (b o : Boid)
    (h : b.pos.distance_to o.pos = 0) :
    Flock.separation { f with boids := o :: f.boids } b = f.separation b ∧
      (f.separation b).isSome = true := by
  refine ⟨?_, separation_isSome f b⟩
  unfold Flock.separation
  rw [sepLoop_cons_coincident _ _ _ h]

/-- A concrete boid for the witness of claim C9. -/
def CB9 : Boid := ⟨⟨250, 250⟩, ⟨1, 1⟩, ⟨0, 0⟩, 4, 0.05, false, 2, 0⟩

/-- A concrete coincident boid for the witness of claim C9. -/
def CO9 : Boid := ⟨⟨250, 250⟩, ⟨-2, 1⟩, ⟨0, 0⟩, 4, 0.05, false, 2, 0⟩

/-- A concrete flock for the witness of claim C9. -/
def CF9 : Flock := ⟨[], [], 1.5, 1, 1, 60, 40⟩

/-- Witness for claim C9 at a concrete flock, boid and coincident boid. -/
theorem claim_C9_witness :
    CB9.pos.distance_to CO9.pos = 0 ∧
      (Flock.separation { CF9 with boids := CO9 :: CF9.boids } CB9 =
          CF9.separation CB9 ∧
        (CF9.separation CB9).isSome = true) :=
  ⟨Vec2.distance_to_eval le_rfl (by norm_num [CB9, CO9]),
   claim_C9_thm CF9 CB9 CO9
     (Vec2.distance_to_eval le_rfl (by norm_num [CB9, CO9]))⟩

/-! ### Unfolding helpers for Flock.step -/

theorem stepAux_nil (f : Flock) (t : ℝ) (done : List Boid) :
    f.stepAux t done [] = some done.reverse := rfl

theorem stepAux_cons_some {f : Flock} {t : ℝ} {done : List Boid} {b : Boid}
    {todo : List Boid} {b2 : Boid}
    (h : Flock.processBoid { f with boids := done.reverse ++ b :: todo }
      t done.length b = some b2) :
    f.stepAux t done (b :: todo) = f.stepAux t (b2 :: done) todo := by
  simp only [Flock.stepAux]
  rw [h]

theorem stepAux_cons_none {f : Flock} {t : ℝ} {done : List Boid} {b : Boid}
    {todo : List Boid}
    (h : Flock.processBoid { f with boids := done.reverse ++ b :: todo }
      t done.length b = none) :
    f.stepAux t done (b :: todo) = none := by
  simp only [Flock.stepAux]
  rw [h]

theorem step_eq_none {f : Flock} {t : ℝ}
    (h : Flock.stepAux { f with obstacles := f.obstacles.map Obstacle.update }
      t [] f.boids = none) :
    f.step t = none := by
  unfold Flock.step
  dsimp only
  rw [h]

theorem step_eq_some {f : Flock} {t : ℝ} {bs : List Boid}
    (h : Flock.stepAux { f with obstacles := f.obstacles.map Obstacle.update }
      t [] f.boids = some bs) :
    f.step t =
      some { f with obstacles := f.obstacles.map Obstacle.update, boids := bs } := by
  unfold Flock.step
  dsimp only
  rw [h]

theorem step_some_inv {f : Flock} {t : ℝ} {f' : Flock} (h : f.step t = some f') :
    ∃ bs, Flock.stepAux { f with obstacles := f.obstacles.map Obstacle.update }
        t [] f.boids = some bs ∧
      f' = { f with obstacles := f.obstacles.map Obstacle.update, boids := bs } := by
  unfold Flock.step at h
  dsimp only at h
  cases hs : Flock.stepAux { f with obstacles := f.obstacles.map Obstacle.update }
      t [] f.boids with
  | none => rw [hs] at h; exact absurd h (by simp)
  | some bs =>
      rw [hs] at h
      exact ⟨bs, rfl, (Option.some.injEq _ _ ▸ h).symm⟩

/-! ### Counterexample flock for claim C2: step raises -/

/-- A non-leader boid at rest; two copies of it sit at the same point. -/
def BA2 : Boid := ⟨⟨100, 100⟩, ⟨0, 0⟩, ⟨0, 0⟩, 4, 0.05, false, 2, 0⟩

/-- A flock of two coincident, motionless non-leader boids. -/
def F2 : Flock := ⟨[BA2, BA2], [], 1.5, 1, 1, 60, 40⟩

theorem F2_neighbors : F2.get_neighbors 0 BA2 = [BA2] := by
  norm_num [Flock.get_neighbors, F2, neighborsLoop, Vec2.distance_to_self]

theorem F2_separation : F2.separation BA2 = some 0 := by
  norm_num [Flock.separation, sepLoop, F2, Vec2.distance_to_self]

theorem F2_alignment : F2.alignment 0 BA2 = none := by
  have havg : (1 / ((([BA2] : List Boid).length : ℕ) : ℝ)) •
      List.foldl (fun a o => a + o.vel) 0 [BA2] = (0 : Vec2) := by
    simp [BA2]
    ext <;> norm_num
  simp only [Flock.alignment, F2_neighbors, havg]
  rw [normalizeOpt_zero_length Vec2.length_zero]
  simp

theorem F2_force : F2.forceBoid 0 0 BA2 = none := by
  have hl : BA2.leader = false := rfl
  simp only [Flock.forceBoid, hl, Bool.false_eq_true, if_false,
    F2_separation, F2_alignment]

theorem F2_processBoid : F2.processBoid 0 0 BA2 = none := by
  simp only [Flock.processBoid, F2_force, Option.map_none']

/-- Counterexample to claim C2 as stated: in this flock of two coincident
motionless boids, the first boid's alignment rule normalizes the
zero-length average neighbor velocity (unguarded in the source), so the
step raises a ValueError (modelled as `none`) instead of treating the
zero-length vector as a zero force. -/
theorem claim_C2_counterexample : F2.step 0 = none := by
  apply step_eq_none
  have h1 : Flock.processBoid { F2 with boids := ([] : List Boid).reverse ++ BA2 :: [BA2] }
      0 (List.length ([] : List Boid)) BA2 = none := F2_processBoid
  have h2 : Flock.stepAux F2 0 [] [BA2, BA2] = none := stepAux_cons_none h1
  exact h2

/-! ### Concrete evaluation of a leader boid and of Flock.step on a
single-leader flock -/

theorem wrapX_of_mem {z : ℝ} (h0 : ¬ z < 0) (h1 : ¬ z > WIDTH) : wrapX z = z := by
  rw [wrapX, if_neg h0, if_neg h1]

theorem wrapY_of_mem {z : ℝ} (h0 : ¬ z < 0) (h1 : ¬ z > HEIGHT) : wrapY z = z := by
  rw [wrapY, if_neg h0, if_neg h1]

/-- A leader boid at rest at (600, 350), with phase 0. -/
def L0 : Boid := ⟨⟨600, 350⟩, ⟨0, 0⟩, ⟨0, 0⟩, 4, 0.05, true, 2, 0⟩

/-- L0 after its force computation at t = 0: the orbital target is
(700, 350), so the clamped steering force is (0.05, 0). -/
def Lf : Boid := ⟨⟨600, 350⟩, ⟨0, 0⟩, ⟨0.05, 0⟩, 4, 0.05, true, 2, 0⟩

/-- L0 after one full step at t = 0. -/
def L0' : Boid := ⟨⟨600.05, 350⟩, ⟨0.05, 0⟩, ⟨0, 0⟩, 4, 0.05, true, 2, 0⟩

theorem forceBoid_L0 (g : Flock) (i : ℕ) : g.forceBoid 0 i L0 = some Lf := by
  have htarget : leaderTarget 0 L0 - L0.pos = (⟨100, 0⟩ : Vec2) := by
    ext <;> norm_num [leaderTarget, L0, WIDTH, HEIGHT]
  have hlen : (⟨100, 0⟩ : Vec2).length = 100 :=
    Vec2.length_eval (by norm_num) (by norm_num)
  have hnorm : normalizeOpt (⟨100, 0⟩ : Vec2) = some (⟨1, 0⟩ : Vec2) := by
    rw [normalizeOpt_of_length_pos (by rw [hlen]; norm_num), hlen]
    norm_num
  have hsteer : L0.max_speed • (⟨1, 0⟩ : Vec2) - L0.vel = (⟨4, 0⟩ : Vec2) := by
    ext <;> norm_num [L0]
  have hlen4 : (⟨4, 0⟩ : Vec2).length = 4 :=
    Vec2.length_eval (by norm_num) (by norm_num)
  have hlimit : limit (⟨4, 0⟩ : Vec2) L0.max_force = (⟨0.05, 0⟩ : Vec2) := by
    rw [limit, if_pos (by rw [hlen4]; norm_num [L0]), hlen4]
    ext <;> norm_num [L0]
  unfold Flock.forceBoid
  rw [if_pos (show L0.leader = true from rfl), htarget, hnorm]
  dsimp only
  rw [hsteer, hlimit]
  norm_num [Boid.apply_force, L0, Lf]

theorem update_Lf : Lf.update = L0' := by
  have hsum : Lf.vel + Lf.acc = (⟨0.05, 0⟩ : Vec2) := by ext <;> norm_num [Lf]
  have hlen : (⟨0.05, 0⟩ : Vec2).length = 0.05 :=
    Vec2.length_eval (by norm_num) (by norm_num)
  have hlim : limit (⟨0.05, 0⟩ : Vec2) Lf.max_speed = (⟨0.05, 0⟩ : Vec2) :=
    limit_of_not_gt (by rw [hlen]; norm_num [Lf])
  have hpos : Lf.pos + (⟨0.05, 0⟩ : Vec2) = (⟨600.05, 350⟩ : Vec2) := by
    ext <;> norm_num [Lf]
  have hwrap : wrapPos (⟨600.05, 350⟩ : Vec2) = (⟨600.05, 350⟩ : Vec2) := by
    ext
    · exact wrapX_of_mem (by norm_num) (by norm_num [WIDTH])
    · exact wrapY_of_mem (by norm_num) (by norm_num [HEIGHT])
  ext <;> simp only [Boid.update_pos, Boid.update_vel, Boid.update_acc,
    Boid.update_max_speed, Boid.update_max_force, Boid.update_leader,
    Boid.update_base_speed, Boid.update_phase, hsum, hlim, hpos, hwrap] <;>
    norm_num [Lf, L0']

theorem processBoid_L0 (g : Flock) (i : ℕ) : g.processBoid 0 i L0 = some L0' := by
  simp only [Flock.processBoid, forceBoid_L0, Option.map_some', update_Lf]

/-- A flock holding the single leader boid L0 and no obstacles. -/
def F0 : Flock := ⟨[L0], [], 1.5, 1, 1, 60, 40⟩

/-- F0 after one step at t = 0. -/
def F0' : Flock := ⟨[L0'], [], 1.5, 1, 1, 60, 40⟩

theorem step_F0 : F0.step 0 = some F0' := by
  have h1 : Flock.processBoid
      { F0 with boids := ([] : List Boid).reverse ++ L0 :: ([] : List Boid) }
      0 (List.length ([] : List Boid)) L0 = some L0' := processBoid_L0 _ _
  have h2 : Flock.stepAux F0 0 [] [L0] = some [L0'] := by
    rw [stepAux_cons_some h1]
    rfl
  exact step_eq_some (show Flock.stepAux
    { F0 with obstacles := F0.obstacles.map Obstacle.update } 0 [] F0.boids =
      some [L0'] from h2)

/-- Claim C10: Flock.step leaves every tunable parameter unchanged: the
three rule weights and the two radii are the same after a successful step
as before it. -/
theorem claim_C10_thm (f : Flock) (t : ℝ) (f' : Flock) (h : f.step t = some f') :
    f'.separation_weight = f.separation_weight ∧
    f'.alignment_weight = f.alignment_weight ∧
    f'.cohesion_weight = f.cohesion_weight ∧
    f'.perception_radius = f.perception_radius ∧
    f'.avoidance_radius = f.avoidance_radius := by
  obtain ⟨bs, _, rfl⟩ := step_some_inv h
  exact ⟨rfl, rfl, rfl, rfl, rfl⟩

/-- Witness for claim C10 on the concrete single-leader flock F0. -/
theorem claim_C10_witness :
    F0.step 0 = some F0' ∧
      (F0'.separation_weight = F0.separation_weight ∧
       F0'.alignment_weight = F0.alignment_weight ∧
       F0'.cohesion_weight = F0.cohesion_weight ∧
       F0'.perception_radius = F0.perception_radius ∧
       F0'.avoidance_radius = F0.avoidance_radius) :=
  ⟨step_F0, claim_C10_thm F0 0 F0' step_F0⟩

/-! ### Positional correspondence through the boid loop (claim C8) -/

theorem stepAux_forall2 (f : Flock) (t : ℝ) :
    ∀ (todo done res : List Boid),
      f.stepAux t done todo = some res →
      ∃ out, res = done.reverse ++ out ∧
        List.Forall₂ (fun b b2 => ∃ g i, Flock.processBoid g t i b = some b2)
          todo out := by
  intro todo
  induction todo with
  | nil =>
      intro done res h
      rw [stepAux_nil] at h
      refine ⟨[], ?_, List.Forall₂.nil⟩
      simp only [List.append_nil]
      exact (Option.some.injEq _ _ ▸ h).symm
  | cons b todo ih =>
      intro done res h
      simp only [Flock.stepAux] at h
      cases hp : Flock.processBoid { f with boids := done.reverse ++ b :: todo }
          t done.length b with
      | none => rw [hp] at h; exact absurd h (by simp)
      | some b2 =>
          rw [hp] at h
          dsimp only at h
          obtain ⟨out, hres, hfa⟩ := ih (b2 :: done) res h
          refine ⟨b2 :: out, ?_, List.Forall₂.cons ⟨_, _, hp⟩ hfa⟩
          rw [hres]
          simp

theorem forall2_getElem {α β : Type} {R : α → β → Prop} :
    ∀ {l1 : List α} {l2 : List β}, List.Forall₂ R l1 l2 →
      ∀ (i : ℕ) (a : α) (b : β), l1[i]? = some a → l2[i]? = some b → R a b := by
  intro l1 l2 hf
  induction hf with
  | nil => intro i a b h1 h2; simp at h1
  | cons hr htail ih =>
      intro i a b h1 h2
      cases i with
      | zero =>
          simp only [List.getElem?_cons_zero, Option.some.injEq] at h1 h2
          rw [← h1, ← h2]
          exact hr
      | succ n =>
          exact ih n a b (by simpa using h1) (by simpa using h2)

theorem processBoid_leader_max_speed {g : Flock} {t : ℝ} {i : ℕ} {b b2 : Boid}
    (hl : b.leader = true) (h : g.processBoid t i b = some b2) :
    b2.max_speed = b.max_speed := by
  unfold Flock.processBoid Flock.forceBoid at h
  rw [if_pos hl] at h
  cases hn : normalizeOpt (leaderTarget t b - b.pos) with
  | none => rw [hn] at h; exact absurd h (by simp)
  | some u =>
      rw [hn] at h
      dsimp only [Option.map_some'] at h
      have hb2 : b2 = ((b.apply_force
          (limit (b.max_speed • u - b.vel) b.max_force)).update) :=
        (Option.some.injEq _ _ ▸ h).symm
      rw [hb2]
      simp

/-- Claim C8: a successful Flock.step never modifies a leader boid's
max_speed: the boid at any position i that is a leader has the same
max_speed after the step as before (the density-adaptive speed rule is
applied only in the non-leader branch). -/
theorem claim_C8_thm (f : Flock) (t : ℝ) (f' : Flock) (h : f.step t = some f')
    (i : ℕ) (b b' : Boid) (hb : f.boids[i]? = some b)
    (hb' : f'.boids[i]? = some b') (hl : b.leader = true) :
    b'.max_speed = b.max_speed := by
  obtain ⟨bs, hsa, rfl⟩ := step_some_inv h
  obtain ⟨out, hres, hfa⟩ := stepAux_forall2 _ t f.boids [] bs hsa
  simp only [List.reverse_nil, List.nil_append] at hres
  rw [← hres] at hfa
  have hb'' : bs[i]? = some b' := hb'
  obtain ⟨g, j, hp⟩ := forall2_getElem hfa i b b' hb hb''
  exact processBoid_leader_max_speed hl hp

/-- Witness for claim C8 on the concrete single-leader flock F0. -/
theorem claim_C8_witness :
    (F0.step 0 = some F0' ∧ F0.boids[0]? = some L0 ∧
      F0'.boids[0]? = some L0' ∧ L0.leader = true) ∧
    L0'.max_speed = L0.max_speed :=
  ⟨⟨step_F0, rfl, rfl, rfl⟩,
   claim_C8_thm F0 0 F0' step_F0 0 L0 L0' rfl rfl rfl⟩

/-! ### Claim C5: density-adaptive speed -/

theorem limit_zero {m : ℝ} (hm : 0 ≤ m) : limit (0 : Vec2) m = 0 :=
  limit_of_not_gt (by rw [Vec2.length_zero]; exact not_lt.mpr hm)

theorem Boid.apply_force_zero (b : Boid) : b.apply_force 0 = b := by
  ext <;> simp [Boid.apply_force]

/-- Claim C5: for every non-leader boid processed in a step, the boid's
max_speed is set (before the weighted combination is applied as a force)
to max(1.5, 4.0 - neighborCount/10); in particular 0 neighbors give
max_speed 4.0 and 30 neighbors give max_speed 1.5. -/
theorem claim_C5_thm (f : Flock) (t : ℝ) (i : ℕ) (b b' : Boid)
    (hb : b.leader = false) (h : f.processBoid t i b = some b') :
    b'.max_speed = max 1.5 (4 - ((f.get_neighbors i b).length : ℝ) / 10) ∧
    ((f.get_neighbors i b).length = 0 → b'.max_speed = 4) ∧
    ((f.get_neighbors i b).length = 30 → b'.max_speed = 1.5) := by
  have hms : b'.max_speed =
      max 1.5 (4 - ((f.get_neighbors i b).length : ℝ) / 10) := by
    unfold Flock.processBoid Flock.forceBoid at h
    rw [if_neg (by simp [hb])] at h
    cases h1 : f.separation b with
    | none => rw [h1] at h; exact absurd h (by simp)
    | some sepv =>
        rw [h1] at h
        dsimp only at h
        cases h2 : f.alignment i b with
        | none => rw [h2] at h; exact absurd h (by simp)
        | some aliv =>
            rw [h2] at h
            dsimp only at h
            cases h3 : f.cohesion i b with
            | none => rw [h3] at h; exact absurd h (by simp)
            | some cohv =>
                rw [h3] at h
                dsimp only at h
                cases h4 : f.avoid_obstacles b with
                | none => rw [h4] at h; exact absurd h (by simp)
                | some obsv =>
                    rw [h4] at h
                    dsimp only [Option.map_some'] at h
                    have hb' := (Option.some.injEq _ _ ▸ h).symm
                    rw [hb']
                    simp
  refine ⟨hms, ?_, ?_⟩
  · intro h0
    rw [hms, h0]
    norm_num [max_def]
  · intro h30
    rw [hms, h30]
    norm_num [max_def]

/-- A solitary non-leader boid at rest. -/
def B3 : Boid := ⟨⟨500, 100⟩, ⟨0, 0⟩, ⟨0, 0⟩, 4, 0.05, false, 2, 0⟩

/-- A flock holding only the boid B3. -/
def F3 : Flock := ⟨[B3], [], 1.5, 1, 1, 60, 40⟩

theorem F3_neighbors : F3.get_neighbors 0 B3 = [] := by
  norm_num [Flock.get_neighbors, F3, neighborsLoop]

theorem F3_separation : F3.separation B3 = some 0 := by
  norm_num [Flock.separation, sepLoop, F3, Vec2.distance_to_self]

theorem F3_alignment : F3.alignment 0 B3 = some 0 := by
  simp [Flock.alignment, F3_neighbors]

theorem F3_cohesion : F3.cohesion 0 B3 = some 0 := by
  simp [Flock.cohesion, F3_neighbors]

theorem F3_avoid : F3.avoid_obstacles B3 = some 0 := rfl

theorem update_B3 : B3.update = B3 := by
  have hsum : B3.vel + B3.acc = (0 : Vec2) := by ext <;> norm_num [B3]
  have hlim : limit (0 : Vec2) B3.max_speed = 0 :=
    limit_zero (by norm_num [B3])
  have hpos : B3.pos + (0 : Vec2) = B3.pos := Vec2.add_zero _
  have hwrap : wrapPos B3.pos = B3.pos := by
    ext
    · exact wrapX_of_mem (by norm_num [B3]) (by norm_num [B3, WIDTH])
    · exact wrapY_of_mem (by norm_num [B3]) (by norm_num [B3, HEIGHT])
  ext <;> simp only [Boid.update_pos, Boid.update_vel, Boid.update_acc,
    Boid.update_max_speed, Boid.update_max_force, Boid.update_leader,
    Boid.update_base_speed, Boid.update_phase, hsum, hlim, hpos, hwrap] <;>
    norm_num [B3]

theorem F3_force : F3.forceBoid 0 0 B3 = some B3 := by
  unfold Flock.forceBoid
  rw [if_neg (by simp [show B3.leader = false from rfl]),
    F3_separation, F3_alignment, F3_cohesion, F3_avoid]
  dsimp only
  rw [F3_neighbors]
  have htot : F3.separation_weight • (0 : Vec2) + F3.alignment_weight • 0
      + F3.cohesion_weight • 0 + (2 : ℝ) • 0 = (0 : Vec2) := by
    ext <;> simp
  rw [htot]
  have hlim : limit (0 : Vec2)
      ({ B3 with max_speed := max 1.5 (4 - ((([] : List Boid).length : ℕ) : ℝ) / 10) } : Boid).max_force = 0 :=
    limit_zero (by norm_num [B3])
  rw [hlim, Boid.apply_force_zero]
  have : max (1.5 : ℝ) (4 - ((([] : List Boid).length : ℕ) : ℝ) / 10) = 4 := by
    norm_num [max_def]
  rw [this]
  norm_num [B3]

theorem F3_processBoid : F3.processBoid 0 0 B3 = some B3 := by
  simp only [Flock.processBoid, F3_force, Option.map_some', update_B3]

/-- Witness for claim C5 at the concrete solitary non-leader boid B3. -/
theorem claim_C5_witness :
    (B3.leader = false ∧ F3.processBoid 0 0 B3 = some B3) ∧
    (B3.max_speed = max 1.5 (4 - ((F3.get_neighbors 0 B3).length : ℝ) / 10) ∧
     ((F3.get_neighbors 0 B3).length = 0 → B3.max_speed = 4) ∧
     ((F3.get_neighbors 0 B3).length = 30 → B3.max_speed = 1.5)) :=
  ⟨⟨rfl, F3_processBoid⟩, claim_C5_thm F3 0 0 B3 B3 rfl F3_processBoid⟩

/-! ### Claim C7: separation is repulsive for a pair of boids -/

theorem sep_steer_eq (p q : Vec2) (hd : 0 < p.distance_to q) :
    (0 : Vec2) + (1 / p.distance_to q) • ((1 / (p - q).length) • (p - q))
      = (1 / (p.distance_to q * p.distance_to q)) • (p - q) := by
  rw [Vec2.zero_add, Vec2.smul_smul]
  have hl : (p - q).length = p.distance_to q := rfl
  rw [hl]
  congr 1
  field_simp

theorem sep_steer_length (p q : Vec2) (hd : 0 < p.distance_to q) :
    ((1 / (p.distance_to q * p.distance_to q)) • (p - q)).length
      = 1 / p.distance_to q := by
  rw [Vec2.length_smul]
  have hl : (p - q).length = p.distance_to q := rfl
  rw [hl, abs_of_pos (by positivity)]
  field_simp

theorem sep_norm_steer (p q : Vec2) (hd : 0 < p.distance_to q) :
    normalizeOpt ((1 / (p.distance_to q * p.distance_to q)) • (p - q))
      = some ((1 / p.distance_to q) • (p - q)) := by
  rw [normalizeOpt_of_length_pos
      (by rw [sep_steer_length p q hd]; positivity),
    sep_steer_length p q hd, Vec2.smul_smul]
  congr 2
  field_simp

theorem sep_dot_pos (p q : Vec2) (ms : ℝ) (hms : 0 < ms)
    (hd : 0 < p.distance_to q) :
    0 < (ms • ((1 / p.distance_to q) • (p - q)) - 0).dot (p - q) := by
  rw [Vec2.sub_zero, Vec2.smul_smul, Vec2.smul_dot, Vec2.dot_self]
  have hl : (p - q).length = p.distance_to q := rfl
  rw [hl]
  have h2 : ms * (1 / p.distance_to q) * p.distance_to q ^ 2
      = ms * p.distance_to q := by
    field_simp
    ring
  rw [h2]
  positivity

/-- Claim C7: in a flock of exactly two boids at distance
0 < d < avoidance_radius with both velocities zero, the separation force
of each boid points away from the other: its dot product with the
position delta (self minus other) is positive. -/
theorem claim_C7_thm (f : Flock) (a b : Boid)
    (hf : f.boids = [a, b])
    (hd0 : 0 < a.pos.distance_to b.pos)
    (hdr : a.pos.distance_to b.pos < f.avoidance_radius)
    (hva : a.vel = 0) (hvb : b.vel = 0)
    (hma : 0 < a.max_speed) (hmb : 0 < b.max_speed) :
    ∃ sa sb, f.separation a = some sa ∧ f.separation b = some sb ∧
      0 < sa.dot (a.pos - b.pos) ∧ 0 < sb.dot (b.pos - a.pos) := by
  have hd0' : 0 < b.pos.distance_to a.pos := by
    rw [Vec2.distance_to_comm]; exact hd0
  have hdr' : b.pos.distance_to a.pos < f.avoidance_radius := by
    rw [Vec2.distance_to_comm]; exact hdr
  refine ⟨a.max_speed • ((1 / a.pos.distance_to b.pos) • (a.pos - b.pos)) - 0,
      b.max_speed • ((1 / b.pos.distance_to a.pos) • (b.pos - a.pos)) - 0,
      ?_, ?_, sep_dot_pos a.pos b.pos a.max_speed hma hd0,
      sep_dot_pos b.pos a.pos b.max_speed hmb hd0'⟩
  · unfold Flock.separation
    rw [hf]
    simp only [sepLoop, Vec2.distance_to_self]
    rw [if_neg (by norm_num), if_pos (⟨hd0, hdr⟩ :
        0 < a.pos.distance_to b.pos ∧ a.pos.distance_to b.pos < f.avoidance_radius),
      normalizeOpt_of_length_pos hd0]
    dsimp only
    rw [sep_steer_eq a.pos b.pos hd0]
    rw [if_pos (by rw [sep_steer_length a.pos b.pos hd0]; positivity :
        ((1 / (a.pos.distance_to b.pos * a.pos.distance_to b.pos)) •
          (a.pos - b.pos)).length > 0)]
    rw [sep_norm_steer a.pos b.pos hd0]
    dsimp only
    rw [hva]
  · unfold Flock.separation
    rw [hf]
    simp only [sepLoop, Vec2.distance_to_self]
    rw [if_pos (⟨hd0', hdr'⟩ :
        0 < b.pos.distance_to a.pos ∧ b.pos.distance_to a.pos < f.avoidance_radius),
      normalizeOpt_of_length_pos hd0']
    dsimp only
    rw [if_neg (by norm_num)]
    dsimp only
    rw [sep_steer_eq b.pos a.pos hd0']
    rw [if_pos (by rw [sep_steer_length b.pos a.pos hd0']; positivity :
        ((1 / (b.pos.distance_to a.pos * b.pos.distance_to a.pos)) •
          (b.pos - a.pos)).length > 0)]
    rw [sep_norm_steer b.pos a.pos hd0']
    dsimp only
    rw [hvb]

/-- A concrete boid at the origin for the witness of claim C7. -/
def A7 : Boid := ⟨⟨0, 0⟩, ⟨0, 0⟩, ⟨0, 0⟩, 4, 0.05, false, 2, 0⟩

/-- A concrete boid at (30, 0) for the witness of claim C7. -/
def B7 : Boid := ⟨⟨30, 0⟩, ⟨0, 0⟩, ⟨0, 0⟩, 4, 0.05, false, 2, 0⟩

/-- A concrete two-boid flock for the witness of claim C7. -/
def F7 : Flock := ⟨[A7, B7], [], 1.5, 1, 1, 60, 40⟩

/-- Witness for claim C7: the two boids at distance 30 < 40. -/
theorem claim_C7_witness :
    (F7.boids = [A7, B7] ∧ 0 < A7.pos.distance_to B7.pos ∧
     A7.pos.distance_to B7.pos < F7.avoidance_radius ∧
     A7.vel = 0 ∧ B7.vel = 0 ∧ 0 < A7.max_speed ∧ 0 < B7.max_speed) ∧
    (∃ sa sb, F7.separation A7 = some sa ∧ F7.separation B7 = some sb ∧
      0 < sa.dot (A7.pos - B7.pos) ∧ 0 < sb.dot (B7.pos - A7.pos)) := by
  have hd : A7.pos.distance_to B7.pos = 30 :=
    Vec2.distance_to_eval (by norm_num) (by norm_num [A7, B7])
  refine ⟨⟨rfl, ?_, ?_, rfl, rfl, by norm_num [A7], by norm_num [B7]⟩,
    claim_C7_thm F7 A7 B7 rfl ?_ ?_ rfl rfl (by norm_num [A7]) (by norm_num [B7])⟩
  · rw [hd]; norm_num
  · rw [hd]; norm_num [F7]
  · rw [hd]; norm_num
  · rw [hd]; norm_num [F7]

/-! ### Claim C1: sequential versus snapshot semantics -/

theorem stepAux_singleton (g : Flock) (t : ℝ) (b : Boid) (hg : g.boids = [b]) :
    g.stepAux t [] [b] =
      match g.forceBoid t 0 b with
      | none => none
      | some bf => some [bf.update] := by
  have he : ({ g with boids := [b] } : Flock) = g := by
    ext1 <;> simp [hg]
  simp only [Flock.stepAux, List.reverse_nil, List.nil_append, List.length_nil]
  rw [he]
  unfold Flock.processBoid
  cases hfb : g.forceBoid t 0 b with
  | none => rfl
  | some bf => rfl

/-- Claim C1 (amended): the implemented step updates obstacles first and
then processes the boids sequentially in list order, each boid computing
its forces against the current state in which earlier boids have already
moved this tick and integrating immediately; this agrees with the
specification's snapshot semantics exactly when the boids cannot
influence one another, in particular whenever the flock has at most one
boid.  (The counterexample shows the two semantics differ already for
two boids.) -/
theorem claim_C1_thm (f : Flock) (t : ℝ) (h : f.boids.length ≤ 1) :
    f.step t = f.stepSnapshot t := by
  cases hb : f.boids with
  | nil =>
      unfold Flock.step Flock.stepSnapshot
      dsimp only
      rw [hb]
      rfl
  | cons b rest =>
      cases rest with
      | cons c rest2 => rw [hb] at h; simp at h
      | nil =>
          unfold Flock.step Flock.stepSnapshot
          dsimp only
          rw [hb]
          rw [stepAux_singleton
            ({ f with boids := [b], obstacles := f.obstacles.map Obstacle.update })
            t b rfl]
          simp only [Flock.forceAll]
          cases hfb : Flock.forceBoid { f with boids := [b], obstacles := f.obstacles.map Obstacle.update } t 0 b with
          | none => rfl
          | some bf => rfl

/-- Witness for the amended claim C1 at the concrete one-boid flock F0. -/
theorem claim_C1_witness :
    F0.boids.length ≤ 1 ∧ F0.step 0 = F0.stepSnapshot 0 :=
  ⟨by norm_num [F0], claim_C1_thm F0 0 (by norm_num [F0])⟩

/-! ### Counterexample flock for claim C1: a leader and a follower -/

/-- A motionless non-leader boid 50 units below where the leader L0 will
be after it moves this tick. -/
def B1 : Boid := ⟨⟨600.05, 300⟩, ⟨0, 0⟩, ⟨0, 0⟩, 4, 0.05, false, 2, 0⟩

/-- B1 after its force computation (the density rule slows it to 3.9;
with alignment and cohesion weights zero its net force is zero). -/
def B1f : Boid := ⟨⟨600.05, 300⟩, ⟨0, 0⟩, ⟨0, 0⟩, 3.9, 0.05, false, 2, 0⟩

/-- The two-boid flock: leader L0 first, follower B1 second; alignment
and cohesion weights are set to zero. -/
def F1 : Flock := ⟨[L0, B1], [], 1.5, 0, 0, 60, 40⟩

/-- The flock state seen by B1 in the sequential step, after L0 moved. -/
def G1 : Flock := ⟨[L0', B1], [], 1.5, 0, 0, 60, 40⟩

/-- F1 after one sequential step at t = 0. -/
def F1' : Flock := ⟨[L0', B1f], [], 1.5, 0, 0, 60, 40⟩

theorem G1_sep : G1.separation B1 = some 0 := by
  have hd1 : B1.pos.distance_to L0'.pos = 50 :=
    Vec2.distance_to_eval (by norm_num) (by norm_num [B1, L0'])
  norm_num [Flock.separation, G1, sepLoop, hd1, Vec2.distance_to_self]

theorem G1_neigh : G1.get_neighbors 1 B1 = [L0'] := by
  have hd1 : B1.pos.distance_to L0'.pos = 50 :=
    Vec2.distance_to_eval (by norm_num) (by norm_num [B1, L0'])
  norm_num [Flock.get_neighbors, G1, neighborsLoop, hd1, Vec2.distance_to_self]

theorem normalizeOpt_005 : normalizeOpt (⟨0.05, 0⟩ : Vec2) = some ⟨1, 0⟩ := by
  have hl : (⟨0.05, 0⟩ : Vec2).length = 0.05 :=
    Vec2.length_eval (by norm_num) (by norm_num)
  rw [normalizeOpt_of_length_pos (by rw [hl]; norm_num), hl]
  norm_num

theorem G1_ali : G1.alignment 1 B1 = some ⟨4, 0⟩ := by
  have havg : (1 / ((([L0'] : List Boid).length : ℕ) : ℝ)) •
      List.foldl (fun a o => a + o.vel) 0 [L0'] = (⟨0.05, 0⟩ : Vec2) := by
    simp [L0']
    ext <;> norm_num
  simp only [Flock.alignment, G1_neigh, havg, normalizeOpt_005]
  norm_num [B1]

theorem G1_coh : G1.cohesion 1 B1 = some ⟨0, 4⟩ := by
  have hcen : (1 / ((([L0'] : List Boid).length : ℕ) : ℝ)) •
      List.foldl (fun a o => a + o.pos) 0 [L0'] - B1.pos = (⟨0, 50⟩ : Vec2) := by
    simp [L0', B1]
    ext <;> norm_num
  have hn50 : normalizeOpt (⟨0, 50⟩ : Vec2) = some ⟨0, 1⟩ := by
    have hl : (⟨0, 50⟩ : Vec2).length = 50 :=
      Vec2.length_eval (by norm_num) (by norm_num)
    rw [normalizeOpt_of_length_pos (by rw [hl]; norm_num), hl]
    norm_num
  simp only [Flock.cohesion, G1_neigh, hcen, hn50]
  norm_num [B1]

theorem G1_avoid : G1.avoid_obstacles B1 = some 0 := rfl

theorem G1_force : G1.forceBoid 0 1 B1 = some B1f := by
  simp only [Flock.forceBoid, show B1.leader = false from rfl,
    Bool.false_eq_true, if_false, G1_sep, G1_ali, G1_coh, G1_avoid, G1_neigh]
  have htot : G1.separation_weight • (0 : Vec2)
      + G1.alignment_weight • (⟨4, 0⟩ : Vec2)
      + G1.cohesion_weight • (⟨0, 4⟩ : Vec2) + (2 : ℝ) • (0 : Vec2)
      = (0 : Vec2) := by
    ext <;> norm_num [G1]
  rw [htot]
  have hms : max (1.5 : ℝ) (4 - ((([L0'] : List Boid).length : ℕ) : ℝ) / 10)
      = 3.9 := by
    norm_num [max_def]
  rw [hms]
  have hlim : limit (0 : Vec2)
      ({ B1 with max_speed := (3.9 : ℝ) } : Boid).max_force = 0 :=
    limit_zero (by norm_num [B1])
  rw [hlim, Boid.apply_force_zero]
  norm_num [B1, B1f]

theorem update_B1f : B1f.update = B1f := by
  have hsum : B1f.vel + B1f.acc = (0 : Vec2) := by ext <;> norm_num [B1f]
  have hlim : limit (0 : Vec2) B1f.max_speed = 0 :=
    limit_zero (by norm_num [B1f])
  have hpos : B1f.pos + (0 : Vec2) = B1f.pos := Vec2.add_zero _
  have hwrap : wrapPos B1f.pos = B1f.pos := by
    ext
    · exact wrapX_of_mem (by norm_num [B1f]) (by norm_num [B1f, WIDTH])
    · exact wrapY_of_mem (by norm_num [B1f]) (by norm_num [B1f, HEIGHT])
  ext <;> simp only [Boid.update_pos, Boid.update_vel, Boid.update_acc,
    Boid.update_max_speed, Boid.update_max_force, Boid.update_leader,
    Boid.update_base_speed, Boid.update_phase, hsum, hlim, hpos, hwrap] <;>
    norm_num [B1f]

theorem G1_processBoid : G1.processBoid 0 1 B1 = some B1f := by
  simp only [Flock.processBoid, G1_force, Option.map_some', update_B1f]

theorem step_F1 : F1.step 0 = some F1' := by
  have h1 : Flock.processBoid
      { F1 with boids := ([] : List Boid).reverse ++ L0 :: [B1] }
      0 (List.length ([] : List Boid)) L0 = some L0' := processBoid_L0 _ _
  have h2 : Flock.processBoid
      { F1 with boids := ([L0'] : List Boid).reverse ++ B1 :: ([] : List Boid) }
      0 (List.length ([L0'] : List Boid)) B1 = some B1f := G1_processBoid
  have h3 : Flock.stepAux F1 0 [] [L0, B1] = some [L0', B1f] := by
    rw [stepAux_cons_some h1, stepAux_cons_some h2]
    rfl
  exact step_eq_some (show Flock.stepAux
    { F1 with obstacles := F1.obstacles.map Obstacle.update } 0 [] F1.boids =
      some [L0', B1f] from h3)

/-! ### The snapshot semantics raises on the same flock -/

theorem F1_sepB1 : F1.separation B1 = some 0 := by
  have hx2 : (B1.pos - L0.pos).x ^ 2 + (B1.pos - L0.pos).y ^ 2 = 2500.0025 := by
    norm_num [B1, L0]
  have hd40 : ¬ (B1.pos.distance_to L0.pos < 40) := by
    rw [not_lt]
    show (40 : ℝ) ≤ (B1.pos - L0.pos).length
    rw [Vec2.length, hx2, Real.le_sqrt' (by norm_num : (0:ℝ) < 40)]
    norm_num
  simp only [Flock.separation, F1, sepLoop, Vec2.distance_to_self]
  rw [if_neg (fun hc => hd40 hc.2), if_neg (by norm_num)]
  dsimp only
  rw [if_neg (by rw [Vec2.length_zero]; norm_num)]

theorem F1_neighB1 : F1.get_neighbors 1 B1 = [L0] := by
  have hx2 : (B1.pos - L0.pos).x ^ 2 + (B1.pos - L0.pos).y ^ 2 = 2500.0025 := by
    norm_num [B1, L0]
  have hd60 : B1.pos.distance_to L0.pos < 60 := by
    show (B1.pos - L0.pos).length < 60
    rw [Vec2.length, hx2, Real.sqrt_lt' (by norm_num : (0:ℝ) < 60)]
    norm_num
  simp only [Flock.get_neighbors, F1, neighborsLoop]
  rw [if_pos (⟨by norm_num, hd60⟩ :
      (0 : ℕ) ≠ 1 ∧ B1.pos.distance_to L0.pos < 60),
    if_neg (by simp [Vec2.distance_to_self])]

theorem F1_aliB1 : F1.alignment 1 B1 = none := by
  have havg : (1 / ((([L0] : List Boid).length : ℕ) : ℝ)) •
      List.foldl (fun a o => a + o.vel) 0 [L0] = (0 : Vec2) := by
    simp [L0]
    ext <;> norm_num
  simp only [Flock.alignment, F1_neighB1, havg]
  rw [normalizeOpt_zero_length Vec2.length_zero]
  simp

theorem F1_forceB1 : F1.forceBoid 0 1 B1 = none := by
  simp only [Flock.forceBoid, show B1.leader = false from rfl,
    Bool.false_eq_true, if_false, F1_sepB1, F1_aliB1]

theorem forceAll_cons_none {g : Flock} {t : ℝ} {i : ℕ} {b : Boid}
    {rest : List Boid} (h : g.forceBoid t i b = none) :
    g.forceAll t i (b :: rest) = none := by
  simp only [Flock.forceAll, h]

theorem forceAll_cons_some {g : Flock} {t : ℝ} {i : ℕ} {b : Boid}
    {rest : List Boid} {bf : Boid} (h : g.forceBoid t i b = some bf) :
    g.forceAll t i (b :: rest) =
      match g.forceAll t (i + 1) rest with
      | none => none
      | some others => some (bf :: others) := by
  simp only [Flock.forceAll, h]

theorem snap_F1 : F1.stepSnapshot 0 = none := by
  have hb1 : F1.forceBoid 0 (0 + 1) B1 = none := F1_forceB1
  have hfa : Flock.forceAll
      { F1 with obstacles := F1.obstacles.map Obstacle.update } 0 0 F1.boids
      = none := by
    show Flock.forceAll F1 0 0 [L0, B1] = none
    rw [forceAll_cons_some (forceBoid_L0 F1 0), forceAll_cons_none hb1]
  unfold Flock.stepSnapshot
  dsimp only
  rw [hfa]

/-- Counterexample to claim C1 as stated: on the flock F1, the
implemented sequential step succeeds (the follower's alignment sees the
leader's already-updated, nonzero velocity), while the specification's
snapshot-semantics step raises (against the pre-move snapshot the
leader's velocity is zero, so alignment normalizes a zero-length
vector), so the implemented step is not equal to the snapshot-semantics
step. -/
theorem claim_C1_counterexample : F1.step 0 ≠ F1.stepSnapshot 0 := by
  rw [step_F1, snap_F1]
  simp
